import Mathlib

/-!
# Points ledger and claim state machine of the edulumix backend

A shallow embedding of the points/claims reward ledger: the claim
controller (`createClaim`, `updateClaim`), the user record fields it
reads and writes (`points`, `totalEarnings`, `claimedMilestones`), and
the content-creation point credits and debits from the blog, resource,
job and product controllers.  Document-store reads and writes become
explicit state passing over `LedgerState`; request handlers that answer
with an error response become `Except`; `Date.now()` becomes an explicit
`now : Nat` argument.
-/

namespace Edulumix

/-- Claim status values, from the claimSchema's `status` field
(src/models/DigitalProduct.js, the file that also carries the Claim
model): `enum: ['pending', 'processing', 'paid', 'rejected']` with
default `'pending'`; the store rejects any other status string at save
time. -/
inductive ClaimStatus where
  | pending
  | processing
  | paid
  | rejected
deriving DecidableEq, Repr

/-- The ledger-relevant fields of a `User` document (`models/User.js`):
`points` (schema default 0), `totalEarnings` (default 0) and
`claimedMilestones` (default `[]`).  `points` is an `Int` here so that the
nonnegativity the schema's `min: 0` demands is a theorem about the
operations, not a typing artifact. -/
structure UserRec where
  points : Int
  totalEarnings : Int
  claimedMilestones : List Nat
deriving DecidableEq, Repr

/-- A `Claim` document, from the claimSchema
(src/models/DigitalProduct.js): `user`, milestone `points`, payout
`amount`, `paymentMethod`, `paymentDetails`, `status`, `transactionId`,
`notes`, `processedBy`, `processedAt`.  The string fields whose schema
default is the falsy `''` (`transactionId`, `notes`) and the
null-defaulted processing fields are `Option`s here, `none` standing for
the falsy or null default — exactly how the handlers test them
(`transactionId || claim.transactionId`).  The schema's validation
constraints — `paymentMethod` enum `['upi', 'phone']`, required trimmed
`paymentDetails`, `points` enum `[10, 25, 50, 100]`, `amount` enum
`[15, 30, 60, 120]` — are enforced where documents are created: see
`validPayment` and `createClaim`. -/
structure ClaimRec where
  id : Nat
  user : Nat
  points : Nat
  amount : Nat
  paymentMethod : String
  paymentDetails : String
  status : ClaimStatus
  transactionId : Option String
  notes : Option String
  processedBy : Option Nat
  processedAt : Option Nat
deriving DecidableEq, Repr

/-- The document store as the ledger sees it: the `User` collection keyed
by user id, the `Claim` collection, and the id the store will assign to
the next created claim. -/
structure LedgerState where
  users : Nat → UserRec
  claims : List ClaimRec
  nextClaimId : Nat

/-- Write one user document back to the store. -/
def setUser (f : Nat → UserRec) (i : Nat) (u : UserRec) : Nat → UserRec :=
  fun j => if j = i then u else f j

/-- The fixed milestone table of `createClaim`:
`const validMilestones = { 10: 15, 25: 30, 50: 60, 100: 120 }`, with
`none` for the falsy lookup `!validMilestones[points]`. -/
def validMilestones (p : Nat) : Option Nat :=
  if p = 10 then some 15
  else if p = 25 then some 30
  else if p = 50 then some 60
  else if p = 100 then some 120
  else none

/-- The error responses of `createClaim`, in the order the handler checks
for them; `validationFailed` is the claimSchema validation error thrown
by `Claim.create` and caught as the 500 failed-to-create response, before
any user mutation. -/
inductive ClaimError where
  | invalidMilestone
  | alreadyClaimed
  | insufficientPoints
  | claimAlreadyPending
  | validationFailed
deriving DecidableEq, Repr

/-- The claimSchema's `trim: true` setter on `paymentDetails`: strip
leading and trailing whitespace before validation and storage. -/
def trimWS (s : String) : String :=
  ⟨((s.data.dropWhile Char.isWhitespace).reverse.dropWhile Char.isWhitespace).reverse⟩

/-- The claimSchema validation `Claim.create` applies to the request's
payment fields (src/models/DigitalProduct.js): `paymentMethod` must take
a value of the enum `['upi', 'phone']`, and the required `paymentDetails`
must be nonempty once the schema's `trim` has been applied.  The schema's
`points` and `amount` enums `[10, 25, 50, 100]` and `[15, 30, 60, 120]`
hold on every create path by the milestone table, so they need no
separate check here. -/
def validPayment (payMethod payDetails : String) : Bool :=
  (payMethod == "upi" || payMethod == "phone") && !(trimWS payDetails == "")

/-- The pending-claim lookup `Claim.findOne({ user, status: 'pending' })`
as a membership test. -/
def isPendingOf (uid : Nat) (c : ClaimRec) : Bool :=
  decide (c.user = uid) && decide (c.status = ClaimStatus.pending)

/-- Whether the contributor already has a claim in state `pending`. -/
def hasPendingClaim (s : LedgerState) (uid : Nat) : Bool :=
  s.claims.any (isPendingOf uid)

/-- The claim document `Claim.create` builds on a successful claim
request: the ids and payment fields from the request (`paymentDetails`
stored trimmed, per the schema's `trim`), and from the claimSchema
defaults `status = pending`, falsy `transactionId` and `notes`, and null
`processedBy` and `processedAt`. -/
def newClaim (s : LedgerState) (uid : Nat) (p amt : Nat)
    (payMethod payDetails : String) : ClaimRec :=
  { id := s.nextClaimId
    user := uid
    points := p
    amount := amt
    paymentMethod := payMethod
    paymentDetails := trimWS payDetails
    status := .pending
    transactionId := none
    notes := none
    processedBy := none
    processedAt := none }

/-- The store after a successful claim request: the new claim document,
`user.points -= points`, and `user.claimedMilestones.push(points)`,
written back by `user.save()`. -/
def applyCreate (s : LedgerState) (uid : Nat) (p amt : Nat)
    (payMethod payDetails : String) : LedgerState :=
  let u := s.users uid
  { users := setUser s.users uid
      { u with
        points := u.points - (p : Int)
        claimedMilestones := u.claimedMilestones ++ [p] }
    claims := s.claims ++ [newClaim s uid p amt payMethod payDetails]
    nextClaimId := s.nextClaimId + 1 }

/-- Handler `createClaim` (POST /api/claims): validate the milestone, reject a
milestone already in `claimedMilestones`, reject an insufficient balance,
reject when a pending claim exists — in exactly the source's order of
checks — then `Claim.create` validates the payment fields against the
claimSchema (a failure there is thrown and caught as the 500 response,
before any user mutation), and on success the claim is created, the
points deducted and the milestone pushed. -/
def createClaim (s : LedgerState) (uid : Nat) (p : Nat)
    (payMethod payDetails : String) : Except ClaimError LedgerState :=
  match validMilestones p with
  | none => .error .invalidMilestone
  | some amt =>
    let u := s.users uid
    if p ∈ u.claimedMilestones then
      .error .alreadyClaimed
    else if u.points < (p : Int) then
      .error .insufficientPoints
    else if hasPendingClaim s uid then
      .error .claimAlreadyPending
    else if validPayment payMethod payDetails then
      .ok (applyCreate s uid p amt payMethod payDetails)
    else
      .error .validationFailed

/-- The only error response of `updateClaim` before the mutation:
`Claim not found`. -/
inductive UpdateError where
  | claimNotFound
deriving DecidableEq, Repr

/-- Lookup `Claim.findById`: the document with the given id (ids are unique store
keys). -/
def findClaim (l : List ClaimRec) (cid : Nat) : Option ClaimRec :=
  l.find? (fun d => decide (d.id = cid))

/-- Store write `claim.save()`: write the updated claim document back in place of the
document `findById` fetched. -/
def setClaim : List ClaimRec → Nat → ClaimRec → List ClaimRec
  | [], _, _ => []
  | d :: ds, cid, c => if d.id = cid then c :: ds else d :: setClaim ds cid c

/-- The saved claim document of `updateClaim`: `status`, `transactionId`
and `notes` overwritten only when the request supplied a truthy value
(`claim.status = status || claim.status`), `processedBy` and
`processedAt` stamped unconditionally. -/
def resolvedClaim (claim : ClaimRec) (status : Option ClaimStatus)
    (txId notes : Option String) (procId : Nat) (now : Nat) : ClaimRec :=
  { claim with
    status := status.getD claim.status
    transactionId := (txId.orElse fun _ => claim.transactionId)
    notes := (notes.orElse fun _ => claim.notes)
    processedBy := some procId
    processedAt := some now }

/-- The store after `updateClaim` found its claim: save the updated claim
document, then — keyed on the request's `status`, not on the claim's —
credit `totalEarnings` on `paid`, and on `rejected` refund `points` and
filter the claim's milestone out of `claimedMilestones`. -/
def applyResolve (s : LedgerState) (claim : ClaimRec)
    (status : Option ClaimStatus) (txId notes : Option String)
    (procId : Nat) (now : Nat) : LedgerState :=
  let saved : ClaimRec := resolvedClaim claim status txId notes procId now
  let s1 : LedgerState := { s with claims := setClaim s.claims claim.id saved }
  let s2 : LedgerState :=
    if status = some .paid then
      let u := s1.users claim.user
      let u' : UserRec := { u with totalEarnings := u.totalEarnings + (claim.amount : Int) }
      { s1 with users := setUser s1.users claim.user u' }
    else s1
  if status = some .rejected then
    let u := s2.users claim.user
    let u' : UserRec :=
      { u with
        points := u.points + (claim.points : Int)
        claimedMilestones :=
          u.claimedMilestones.filter (fun m => decide (m ≠ claim.points)) }
    { s2 with users := setUser s2.users claim.user u' }
  else s2

/-- Handler `updateClaim` (PUT /api/claims/:id): fetch the claim by id, answer
`Claim not found` when absent, otherwise apply the update and answer
success.  The handler never validates `status` against the claim's
current state; the request's status is an `Option ClaimStatus` because
the claimSchema's `status` enum rejects any string outside the four
values at `claim.save()`, while a falsy status is kept out of the
document by `status || claim.status`. -/
def updateClaim (s : LedgerState) (cid : Nat) (status : Option ClaimStatus)
    (txId notes : Option String) (procId : Nat) (now : Nat) :
    Except UpdateError LedgerState :=
  match findClaim s.claims cid with
  | none => .error .claimNotFound
  | some claim => .ok (applyResolve s claim status txId notes procId now)

/-- The `+1` point credit a successful content creation (blog, resource,
job, digital product) applies to its author, skipped for `super_admin`:
`User.findByIdAndUpdate(id, { $inc: { points: 1 } })`. -/
def createContent (s : LedgerState) (uid : Nat) (isSuperAdmin : Bool) :
    LedgerState :=
  if isSuperAdmin then s
  else
    let u := s.users uid
    { s with users := setUser s.users uid { u with points := u.points + 1 } }

/-- The `-1` point debit a contributor-initiated soft deletion of their own
entry applies to its author, skipped for `super_admin`:
`$inc: { points: -1 }` followed by `if (updatedUser.points < 0) { points: 0 }`,
so the net effect floors the balance at 0. -/
def deleteContent (s : LedgerState) (uid : Nat) (isSuperAdmin : Bool) :
    LedgerState :=
  if isSuperAdmin then s
  else
    let u := s.users uid
    let p := u.points - 1
    let u' : UserRec := { u with points := if p < 0 then 0 else p }
    { s with users := setUser s.users uid u' }

/-- The ledger-relevant operations of the system. -/
inductive Op where
  | request (uid : Nat) (p : Nat) (payMethod payDetails : String)
  | resolve (cid : Nat) (status : Option ClaimStatus)
      (txId notes : Option String) (procId : Nat) (now : Nat)
  | createContent (uid : Nat) (isSuperAdmin : Bool)
  | deleteContent (uid : Nat) (isSuperAdmin : Bool)

/-- One request-response cycle: a handler that answers with an error
response leaves the store untouched. -/
def step (s : LedgerState) : Op → LedgerState
  | .request uid p m d =>
    match createClaim s uid p m d with
    | .ok s' => s'
    | .error _ => s
  | .resolve cid st tx no pr now =>
    match updateClaim s cid st tx no pr now with
    | .ok s' => s'
    | .error _ => s
  | .createContent uid a => createContent s uid a
  | .deleteContent uid a => deleteContent s uid a

/-- A sequence of request-response cycles. -/
def steps (s : LedgerState) (ops : List Op) : LedgerState :=
  ops.foldl step s

/-- The number of `pending` claims a contributor holds. -/
def pendingCount (s : LedgerState) (uid : Nat) : Nat :=
  s.claims.countP (isPendingOf uid)

/-- An operation that hands `updateClaim` the status `pending` — the one
status value the spec's `resolveClaim` contract excludes from its input
domain. -/
def resolvesToPending : Op → Bool
  | .resolve _ (some .pending) _ _ _ _ => true
  | _ => false

/-! ## Concrete stores used to instantiate the theorems -/

/-- A fresh contributor holding 30 points, nothing claimed. -/
def demoUser : UserRec :=
  { points := 30, totalEarnings := 0, claimedMilestones := [] }

/-- A store holding only fresh contributors and no claims. -/
def demoState : LedgerState :=
  { users := fun _ => demoUser, claims := [], nextClaimId := 0 }

/-- The store after contributor 0 successfully requests the 25-point
milestone from `demoState`. -/
def demoAfter25 : LedgerState :=
  applyCreate demoState 0 25 30 "upi" "acct"

/-- Contributor 0's claim of the 25-point milestone, still `pending`. -/
def pendingClaim25 : ClaimRec :=
  { id := 5, user := 0, points := 25, amount := 30, paymentMethod := "upi"
    paymentDetails := "acct", status := .pending, transactionId := none
    notes := none, processedBy := none, processedAt := none }

/-- A store where contributor 0 holds the pending 25-point claim, with 5
points left and the milestone marked claimed. -/
def pendingState : LedgerState :=
  { users := fun _ =>
      { points := 5, totalEarnings := 0, claimedMilestones := [25] }
    claims := [pendingClaim25]
    nextClaimId := 6 }

/-- The claim `pendingClaim25` after it has been resolved to `paid`. -/
def paidClaim25 : ClaimRec :=
  { pendingClaim25 with status := .paid, processedBy := some 7, processedAt := some 50 }

/-- A store where contributor 0's 25-point claim has already been resolved
to `paid` and its 30 credited to `totalEarnings`. -/
def paidState : LedgerState :=
  { users := fun _ =>
      { points := 5, totalEarnings := 30, claimedMilestones := [25] }
    claims := [paidClaim25]
    nextClaimId := 6 }

/-- The claim `pendingClaim25` moved to the intermediate `processing` status. -/
def processingClaim25 : ClaimRec :=
  { pendingClaim25 with status := .processing }

/-- A store where contributor 0's 25-point claim is in `processing`. -/
def processingState : LedgerState :=
  { users := fun _ =>
      { points := 5, totalEarnings := 0, claimedMilestones := [25] }
    claims := [processingClaim25]
    nextClaimId := 6 }

/-- Like `pendingState`, but the contributor holds 100 points, enough for
a further milestone while the 25-point claim is still pending. -/
def richPendingState : LedgerState :=
  { users := fun _ =>
      { points := 100, totalEarnings := 0, claimedMilestones := [25] }
    claims := [pendingClaim25]
    nextClaimId := 6 }

/-! ## Store helpers -/

lemma setUser_self (f : Nat → UserRec) (i : Nat) (u : UserRec) :
    setUser f i u i = u := by
  simp [setUser]

lemma setUser_ne (f : Nat → UserRec) (i j : Nat) (u : UserRec) (h : j ≠ i) :
    setUser f i u j = f j := by
  simp [setUser, h]

lemma findClaim_id {l : List ClaimRec} {cid : Nat} {c : ClaimRec}
    (h : findClaim l cid = some c) : c.id = cid := by
  have := List.find?_some h
  simpa using this

lemma findClaim_mem {l : List ClaimRec} {cid : Nat} {c : ClaimRec}
    (h : findClaim l cid = some c) : c ∈ l :=
  List.mem_of_find?_eq_some h

/-- Success inversion for `createClaim`: the request succeeds exactly when
all four checks pass, and then the store is `applyCreate`. -/
lemma createClaim_ok_iff {s : LedgerState} {uid p : Nat} {pm pd : String}
    {s' : LedgerState} :
    createClaim s uid p pm pd = .ok s' ↔
      ∃ amt, validMilestones p = some amt ∧
        p ∉ (s.users uid).claimedMilestones ∧
        ¬ (s.users uid).points < (p : Int) ∧
        hasPendingClaim s uid = false ∧
        validPayment pm pd = true ∧
        s' = applyCreate s uid p amt pm pd := by
  unfold createClaim
  cases hv : validMilestones p with
  | none => simp
  | some amt =>
    by_cases h1 : p ∈ (s.users uid).claimedMilestones
    · simp [h1]
    · by_cases h2 : (s.users uid).points < (p : Int)
      · simp [h1, h2]
      · by_cases h3 : hasPendingClaim s uid
        · simp [h1, h2, h3]
        · by_cases h4 : validPayment pm pd = true
          · simp [h1, h2, h3, h4, eq_comm]
          · simp [h1, h2, h3, h4]

/-- Success inversion for `updateClaim`: the request succeeds exactly when
the claim exists, and then the store is `applyResolve`. -/
lemma updateClaim_ok_iff {s : LedgerState} {cid : Nat}
    {status : Option ClaimStatus} {tx no : Option String} {procId now : Nat}
    {s' : LedgerState} :
    updateClaim s cid status tx no procId now = .ok s' ↔
      ∃ claim, findClaim s.claims cid = some claim ∧
        s' = applyResolve s claim status tx no procId now := by
  unfold updateClaim
  cases h : findClaim s.claims cid <;> simp [eq_comm]

/-! ## Claim theorems -/

/-- C1.  A successful `requestClaim` (`createClaim`) creates, in one and
the same store update, a new claim with `status = pending` and the
milestone-table amount, deducts exactly `milestonePoints` from the
contributor's `points`, and appends `milestonePoints` to the
contributor's `claimedMilestones`; and the milestone table is
`{10 ↦ 15, 25 ↦ 30, 50 ↦ 60, 100 ↦ 120}`. -/
theorem createClaim_success_effects (s : LedgerState) (uid p amt : Nat)
    (pm pd : String) (s' : LedgerState)
    (hamt : validMilestones p = some amt)
    (hok : createClaim s uid p pm pd = .ok s') :
    (validMilestones 10 = some 15 ∧ validMilestones 25 = some 30 ∧
      validMilestones 50 = some 60 ∧ validMilestones 100 = some 120) ∧
    s'.claims = s.claims ++ [newClaim s uid p amt pm pd] ∧
    (newClaim s uid p amt pm pd).status = ClaimStatus.pending ∧
    (newClaim s uid p amt pm pd).amount = amt ∧
    (s'.users uid).points = (s.users uid).points - (p : Int) ∧
    (s'.users uid).claimedMilestones =
      (s.users uid).claimedMilestones ++ [p] := by
  obtain ⟨amt', hamt', -, -, -, -, hs'⟩ := createClaim_ok_iff.mp hok
  have : amt' = amt := by rw [hamt] at hamt'; exact (Option.some_inj.mp hamt').symm
  subst this
  subst hs'
  refine ⟨⟨rfl, rfl, rfl, rfl⟩, rfl, rfl, rfl, ?_, ?_⟩ <;>
    simp [applyCreate, setUser_self]

/-- Closed instance of C1: from a fresh contributor with 30 points, the
25-point claim request succeeds and applies all three updates. -/
theorem createClaim_success_effects_witness :
    ((demoAfter25.users 0).points = (demoState.users 0).points - (25 : Int) ∧
      (demoAfter25.users 0).claimedMilestones =
        (demoState.users 0).claimedMilestones ++ [25]) ∧
    demoAfter25.claims =
      demoState.claims ++ [newClaim demoState 0 25 30 "upi" "acct"] := by
  have h := createClaim_success_effects demoState 0 25 30 "upi" "acct"
    demoAfter25 (by decide) rfl
  exact ⟨⟨h.2.2.2.2.1, h.2.2.2.2.2⟩, h.2.1⟩

lemma findClaim_setClaim {l : List ClaimRec} {cid : Nat} {c c' : ClaimRec}
    (hf : findClaim l cid = some c) (hid : c'.id = cid) :
    findClaim (setClaim l cid c') cid = some c' := by
  induction l with
  | nil => simp [findClaim] at hf
  | cons d ds ih =>
    by_cases hd : d.id = cid
    · have : setClaim (d :: ds) cid c' = c' :: ds := by simp [setClaim, hd]
      rw [this]
      exact List.find?_cons_of_pos _ (by simp [hid])
    · have hstep : setClaim (d :: ds) cid c' = d :: setClaim ds cid c' := by
        simp [setClaim, hd]
      have hf' : findClaim ds cid = some c := by
        have := List.find?_cons_of_neg (l := ds) (a := d)
          (p := fun e => decide (e.id = cid)) (by simp [hd])
        simpa [findClaim, this] using hf
      rw [hstep]
      unfold findClaim
      rw [List.find?_cons_of_neg _ (by simp [hd])]
      exact ih hf'

lemma users_applyCreate (s : LedgerState) (uid p amt : Nat) (pm pd : String)
    (j : Nat) :
    (applyCreate s uid p amt pm pd).users j =
      if j = uid then
        { s.users uid with
          points := (s.users uid).points - (p : Int)
          claimedMilestones := (s.users uid).claimedMilestones ++ [p] }
      else s.users j := by
  simp [applyCreate, setUser]

lemma claims_applyCreate (s : LedgerState) (uid p amt : Nat) (pm pd : String) :
    (applyCreate s uid p amt pm pd).claims =
      s.claims ++ [newClaim s uid p amt pm pd] := rfl

lemma claims_applyResolve (s : LedgerState) (c : ClaimRec)
    (st : Option ClaimStatus) (tx no : Option String) (procId now : Nat) :
    (applyResolve s c st tx no procId now).claims =
      setClaim s.claims c.id (resolvedClaim c st tx no procId now) := by
  unfold applyResolve
  split <;> split <;> rfl

lemma users_applyResolve_other (s : LedgerState) (c : ClaimRec)
    (st : Option ClaimStatus) (tx no : Option String) (procId now : Nat)
    (hst : st ≠ some .paid ∧ st ≠ some .rejected) :
    (applyResolve s c st tx no procId now).users = s.users := by
  unfold applyResolve
  rw [if_neg hst.2, if_neg hst.1]

lemma users_applyResolve_paid (s : LedgerState) (c : ClaimRec)
    (tx no : Option String) (procId now : Nat) (j : Nat) :
    (applyResolve s c (some .paid) tx no procId now).users j =
      if j = c.user then
        { s.users c.user with
          totalEarnings := (s.users c.user).totalEarnings + (c.amount : Int) }
      else s.users j := by
  simp [applyResolve, setUser]

lemma users_applyResolve_rejected (s : LedgerState) (c : ClaimRec)
    (tx no : Option String) (procId now : Nat) (j : Nat) :
    (applyResolve s c (some .rejected) tx no procId now).users j =
      if j = c.user then
        { s.users c.user with
          points := (s.users c.user).points + (c.points : Int)
          claimedMilestones :=
            (s.users c.user).claimedMilestones.filter
              (fun m => decide (m ≠ c.points)) }
      else s.users j := by
  simp [applyResolve, setUser]

lemma users_createContent (s : LedgerState) (uid : Nat) (a : Bool) (j : Nat) :
    (createContent s uid a).users j =
      if a = false ∧ j = uid then
        { s.users uid with points := (s.users uid).points + 1 }
      else s.users j := by
  cases a <;> simp [createContent, setUser]

lemma users_deleteContent (s : LedgerState) (uid : Nat) (a : Bool) (j : Nat) :
    (deleteContent s uid a).users j =
      if a = false ∧ j = uid then
        { s.users uid with
          points :=
            if (s.users uid).points - 1 < 0 then 0 else (s.users uid).points - 1 }
      else s.users j := by
  cases a <;> simp [deleteContent, setUser]

lemma claims_createContent (s : LedgerState) (uid : Nat) (a : Bool) :
    (createContent s uid a).claims = s.claims := by
  cases a <;> rfl

lemma claims_deleteContent (s : LedgerState) (uid : Nat) (a : Bool) :
    (deleteContent s uid a).claims = s.claims := by
  cases a <;> rfl

/-- C5.  Resolving an existing claim to `paid` reports success, credits
the owner's `totalEarnings` by exactly the claim's `amount`, and leaves
the owner's `points` and `claimedMilestones` unchanged. -/
theorem updateClaim_paid_effects (s : LedgerState) (cid : Nat) (c : ClaimRec)
    (tx no : Option String) (procId now : Nat)
    (hfind : findClaim s.claims cid = some c) :
    updateClaim s cid (some .paid) tx no procId now =
      .ok (applyResolve s c (some .paid) tx no procId now) ∧
    ((applyResolve s c (some .paid) tx no procId now).users c.user).totalEarnings =
      (s.users c.user).totalEarnings + (c.amount : Int) ∧
    ((applyResolve s c (some .paid) tx no procId now).users c.user).points =
      (s.users c.user).points ∧
    ((applyResolve s c (some .paid) tx no procId now).users c.user).claimedMilestones =
      (s.users c.user).claimedMilestones := by
  refine ⟨by simp [updateClaim, hfind], ?_, ?_, ?_⟩ <;>
    simp [applyResolve, setUser_self]

/-- Closed instance of C5: paying out the pending 25-point claim credits
its 30 to `totalEarnings` and touches neither `points` nor
`claimedMilestones`. -/
theorem updateClaim_paid_effects_witness :
    updateClaim pendingState 5 (some .paid) none none 7 100 =
      .ok (applyResolve pendingState pendingClaim25 (some .paid) none none 7 100) ∧
    ((applyResolve pendingState pendingClaim25 (some .paid) none none 7 100).users
        pendingClaim25.user).totalEarnings =
      (pendingState.users pendingClaim25.user).totalEarnings + (pendingClaim25.amount : Int) ∧
    ((applyResolve pendingState pendingClaim25 (some .paid) none none 7 100).users
        pendingClaim25.user).points =
      (pendingState.users pendingClaim25.user).points ∧
    ((applyResolve pendingState pendingClaim25 (some .paid) none none 7 100).users
        pendingClaim25.user).claimedMilestones =
      (pendingState.users pendingClaim25.user).claimedMilestones :=
  updateClaim_paid_effects pendingState 5 pendingClaim25 none none 7 100 rfl

/-- C4.  Resolving an existing claim to `rejected` refunds the owner's
`points` by exactly the claim's `points`, filters the claim's milestone
out of `claimedMilestones` (so the milestone is no longer marked
claimed), after which a fresh request for that milestone passes the
`AlreadyClaimed` check and succeeds whenever the remaining checks pass. -/
theorem updateClaim_rejected_effects (s : LedgerState) (cid : Nat)
    (c : ClaimRec) (tx no : Option String) (procId now : Nat)
    (hfind : findClaim s.claims cid = some c) :
    updateClaim s cid (some .rejected) tx no procId now =
      .ok (applyResolve s c (some .rejected) tx no procId now) ∧
    ((applyResolve s c (some .rejected) tx no procId now).users c.user).points =
      (s.users c.user).points + (c.points : Int) ∧
    ((applyResolve s c (some .rejected) tx no procId now).users c.user).claimedMilestones =
      (s.users c.user).claimedMilestones.filter (fun m => decide (m ≠ c.points)) ∧
    c.points ∉
      ((applyResolve s c (some .rejected) tx no procId now).users c.user).claimedMilestones ∧
    (∀ amt pm pd,
      validMilestones c.points = some amt →
      validPayment pm pd = true →
      ¬ ((applyResolve s c (some .rejected) tx no procId now).users c.user).points
          < (c.points : Int) →
      hasPendingClaim (applyResolve s c (some .rejected) tx no procId now) c.user = false →
      createClaim (applyResolve s c (some .rejected) tx no procId now) c.user c.points pm pd =
        .ok (applyCreate (applyResolve s c (some .rejected) tx no procId now)
              c.user c.points amt pm pd)) := by
  have hmil : ((applyResolve s c (some .rejected) tx no procId now).users c.user).claimedMilestones =
      (s.users c.user).claimedMilestones.filter (fun m => decide (m ≠ c.points)) := by
    simp [applyResolve, setUser_self]
  refine ⟨by simp [updateClaim, hfind], ?_, hmil, ?_, ?_⟩
  · simp [applyResolve, setUser_self]
  · rw [hmil]
    simp [List.mem_filter]
  · intro amt pm pd hv hvp hlt hnp
    refine createClaim_ok_iff.mpr ⟨amt, hv, ?_, hlt, hnp, hvp, rfl⟩
    rw [hmil]
    simp [List.mem_filter]

/-- Closed instance of C4: rejecting the pending 25-point claim refunds
the 25 points (5 back to 30), unmarks the milestone, and the contributor
can immediately claim the 25-point milestone again. -/
theorem updateClaim_rejected_effects_witness :
    ((applyResolve pendingState pendingClaim25 (some .rejected) none none 7 100).users
        pendingClaim25.user).points =
      (pendingState.users pendingClaim25.user).points + (pendingClaim25.points : Int) ∧
    pendingClaim25.points ∉
      ((applyResolve pendingState pendingClaim25 (some .rejected) none none 7 100).users
        pendingClaim25.user).claimedMilestones ∧
    createClaim (applyResolve pendingState pendingClaim25 (some .rejected) none none 7 100)
        pendingClaim25.user pendingClaim25.points "upi" "acct" =
      .ok (applyCreate (applyResolve pendingState pendingClaim25 (some .rejected) none none 7 100)
            pendingClaim25.user pendingClaim25.points 30 "upi" "acct") := by
  have h := updateClaim_rejected_effects pendingState 5 pendingClaim25 none none 7 100 rfl
  exact ⟨h.2.1, h.2.2.2.1,
    h.2.2.2.2 30 "upi" "acct" (by decide) (by decide) (by decide) (by decide)⟩

/-- C10.  `updateClaim` with no status supplied still reports success,
leaves the claim's status unchanged, overwrites `processedBy` with the
caller and `processedAt` with the current time, and applies no balance
side effect to any user. -/
theorem updateClaim_falsy_status_effects (s : LedgerState) (cid : Nat)
    (c : ClaimRec) (tx no : Option String) (procId now : Nat)
    (hfind : findClaim s.claims cid = some c) :
    updateClaim s cid none tx no procId now =
      .ok (applyResolve s c none tx no procId now) ∧
    findClaim (applyResolve s c none tx no procId now).claims cid =
      some (resolvedClaim c none tx no procId now) ∧
    (resolvedClaim c none tx no procId now).status = c.status ∧
    (resolvedClaim c none tx no procId now).processedBy = some procId ∧
    (resolvedClaim c none tx no procId now).processedAt = some now ∧
    (applyResolve s c none tx no procId now).users = s.users := by
  have hid : c.id = cid := findClaim_id hfind
  refine ⟨by simp [updateClaim, hfind], ?_, rfl, rfl, rfl, ?_⟩
  · show findClaim (setClaim s.claims c.id (resolvedClaim c none tx no procId now)) cid =
      some (resolvedClaim c none tx no procId now)
    rw [hid]
    exact findClaim_setClaim hfind (by simp [resolvedClaim, hid])
  · rfl

/-- Closed instance of C10: a falsy-status resolve call on the pending
25-point claim succeeds, keeps the claim `pending`, stamps processor 7 at
time 100, and changes no user balances. -/
theorem updateClaim_falsy_status_effects_witness :
    updateClaim pendingState 5 none none none 7 100 =
      .ok (applyResolve pendingState pendingClaim25 none none none 7 100) ∧
    (resolvedClaim pendingClaim25 none none none 7 100).status = pendingClaim25.status ∧
    (resolvedClaim pendingClaim25 none none none 7 100).processedBy = some 7 ∧
    (applyResolve pendingState pendingClaim25 none none none 7 100).users =
      pendingState.users := by
  have h := updateClaim_falsy_status_effects pendingState 5 pendingClaim25 none none 7 100 rfl
  exact ⟨h.1, h.2.2.1, h.2.2.2.1, h.2.2.2.2.2⟩

/-- C6 (faithfully recording a code bug): re-resolving an already `paid`
claim to `paid` reports success and credits `totalEarnings` a second
time — from 30 to 60 for the paid 25-point claim — instead of being
idempotent or rejected. -/
theorem updateClaim_paid_repeat_double_credits :
    paidClaim25.status = ClaimStatus.paid ∧
    (paidState.users 0).totalEarnings = 30 ∧
    updateClaim paidState 5 (some .paid) none none 7 100 =
      .ok (applyResolve paidState paidClaim25 (some .paid) none none 7 100) ∧
    ((applyResolve paidState paidClaim25 (some .paid) none none 7 100).users 0).totalEarnings
      = 60 := by
  exact ⟨rfl, by decide, rfl, by decide⟩

/-- C7 (faithfully recording a code bug): `updateClaim` performs no
validation of the requested status — handing it `pending` for a claim in
`processing` reports success and writes `status = pending` back to the
claim. -/
theorem updateClaim_accepts_pending_status :
    processingClaim25.status = ClaimStatus.processing ∧
    updateClaim processingState 5 (some .pending) none none 7 100 =
      .ok (applyResolve processingState processingClaim25 (some .pending) none none 7 100) ∧
    findClaim (applyResolve processingState processingClaim25
        (some .pending) none none 7 100).claims 5 =
      some (resolvedClaim processingClaim25 (some .pending) none none 7 100) ∧
    (resolvedClaim processingClaim25 (some .pending) none none 7 100).status =
      ClaimStatus.pending := by
  exact ⟨rfl, rfl, by decide, rfl⟩

/-- C8, the code's actual behaviour: after the successful 25-point claim
request from 30 points, a second request for the 10-point milestone is
answered with the insufficient-points error — the balance check runs
before the pending-claim check — even though a pending claim also
exists. -/
theorem second_request_insufficient_first :
    createClaim demoState 0 25 "upi" "acct" = .ok demoAfter25 ∧
    (demoAfter25.users 0).points = 5 ∧
    (demoAfter25.users 0).claimedMilestones = [25] ∧
    demoAfter25.claims.map ClaimRec.status = [ClaimStatus.pending] ∧
    demoAfter25.claims.map ClaimRec.amount = [30] ∧
    pendingCount demoAfter25 0 = 1 ∧
    hasPendingClaim demoAfter25 0 = true ∧
    createClaim demoAfter25 0 10 "upi" "acct" =
      .error ClaimError.insufficientPoints := by
  exact ⟨rfl, by decide, by decide, by decide, by decide, by decide, by decide, rfl⟩

/-- C8 as stated fails on the code: in the scenario's second request the
contributor does hold a pending claim, yet the answer is the
insufficient-points error, not `ClaimAlreadyPending`. -/
theorem second_request_not_claimAlreadyPending :
    hasPendingClaim demoAfter25 0 = true ∧
    createClaim demoAfter25 0 10 "upi" "acct" =
      .error ClaimError.insufficientPoints ∧
    ClaimError.insufficientPoints ≠ ClaimError.claimAlreadyPending := by
  exact ⟨by decide, rfl, by decide⟩

/-- C3.  While a milestone value sits in a contributor's
`claimedMilestones`, every claim request for it is answered with the
already-claimed error and the store is left untouched; and the only
operation of the system that ever removes a milestone from a
contributor's `claimedMilestones` is a resolve call with status
`rejected` on an existing claim of that contributor for exactly that
milestone. -/
theorem claimedMilestone_blocks_until_rejected :
    (∀ (s : LedgerState) (uid m : Nat) (pm pd : String),
      validMilestones m ≠ none →
      m ∈ (s.users uid).claimedMilestones →
      createClaim s uid m pm pd = .error .alreadyClaimed ∧
      step s (.request uid m pm pd) = s) ∧
    (∀ (s : LedgerState) (uid m : Nat) (op : Op),
      m ∈ (s.users uid).claimedMilestones →
      m ∉ ((step s op).users uid).claimedMilestones →
      ∃ cid tx no procId now claim,
        op = Op.resolve cid (some .rejected) tx no procId now ∧
        findClaim s.claims cid = some claim ∧
        claim.user = uid ∧ claim.points = m) := by
  constructor
  · intro s uid m pm pd hv hmem
    have hcc : createClaim s uid m pm pd = .error .alreadyClaimed := by
      unfold createClaim
      cases hval : validMilestones m with
      | none => exact absurd hval hv
      | some amt => simp [hmem]
    exact ⟨hcc, by simp [step, hcc]⟩
  · intro s uid m op hmem hnot
    cases op with
    | request uid' p pm pd =>
      exfalso
      cases hc : createClaim s uid' p pm pd with
      | error e => rw [step, hc] at hnot; exact hnot hmem
      | ok s' =>
        obtain ⟨amt, -, -, -, -, -, rfl⟩ := createClaim_ok_iff.mp hc
        rw [step, hc] at hnot
        rw [users_applyCreate] at hnot
        by_cases h : uid = uid'
        · subst h
          simp at hnot
          exact hnot.1 hmem
        · rw [if_neg h] at hnot
          exact hnot hmem
    | resolve cid st tx no procId now =>
      cases hf : findClaim s.claims cid with
      | none =>
        exfalso
        rw [step, updateClaim, hf] at hnot
        exact hnot hmem
      | some claim =>
        have hstep : step s (.resolve cid st tx no procId now) =
            applyResolve s claim st tx no procId now := by
          rw [step, updateClaim, hf]
        rw [hstep] at hnot
        match st with
        | none =>
          exfalso
          rw [users_applyResolve_other s claim none tx no procId now
            (by exact ⟨by simp, by simp⟩)] at hnot
          exact hnot hmem
        | some .pending =>
          exfalso
          rw [users_applyResolve_other s claim (some .pending) tx no procId now
            (by exact ⟨by simp, by simp⟩)] at hnot
          exact hnot hmem
        | some .processing =>
          exfalso
          rw [users_applyResolve_other s claim (some .processing) tx no procId now
            (by exact ⟨by simp, by simp⟩)] at hnot
          exact hnot hmem
        | some .paid =>
          exfalso
          rw [users_applyResolve_paid] at hnot
          by_cases h : uid = claim.user
          · rw [if_pos h] at hnot
            exact hnot (h ▸ hmem)
          · rw [if_neg h] at hnot
            exact hnot hmem
        | some .rejected =>
          by_cases h : uid = claim.user
          · refine ⟨cid, tx, no, procId, now, claim, rfl, hf, h.symm, ?_⟩
            rw [users_applyResolve_rejected, if_pos h] at hnot
            have hnot' : m ∉ (s.users claim.user).claimedMilestones.filter
                (fun x => decide (x ≠ claim.points)) := hnot
            have hmem' : m ∈ (s.users claim.user).claimedMilestones := h ▸ hmem
            by_contra hne
            refine hnot' (List.mem_filter.mpr ⟨hmem', ?_⟩)
            simp only [decide_eq_true_eq]
            exact fun he => hne he.symm
          · exfalso
            rw [users_applyResolve_rejected, if_neg h] at hnot
            exact hnot hmem
    | createContent uid' a =>
      exfalso
      rw [step, users_createContent] at hnot
      by_cases h : a = false ∧ uid = uid'
      · rw [if_pos h] at hnot
        exact hnot (h.2 ▸ hmem)
      · rw [if_neg h] at hnot
        exact hnot hmem
    | deleteContent uid' a =>
      exfalso
      rw [step, users_deleteContent] at hnot
      by_cases h : a = false ∧ uid = uid'
      · rw [if_pos h] at hnot
        exact hnot (h.2 ▸ hmem)
      · rw [if_neg h] at hnot
        exact hnot hmem

/-- Closed instance of C3: with 25 already claimed by contributor 0, a
fresh 25-point request is answered with the already-claimed error and
changes nothing; and the rejected resolution of the pending claim is a
removal of 25 from `claimedMilestones` that the theorem traces back to
that claim. -/
theorem claimedMilestone_blocks_until_rejected_witness :
    (createClaim pendingState 0 25 "upi" "acct" = .error .alreadyClaimed ∧
      step pendingState (.request 0 25 "upi" "acct") = pendingState) ∧
    ∃ cid tx no procId now claim,
      Op.resolve 5 (some .rejected) none none 7 100 =
        Op.resolve cid (some .rejected) tx no procId now ∧
      findClaim pendingState.claims cid = some claim ∧
      claim.user = 0 ∧ claim.points = 25 := by
  refine ⟨claimedMilestone_blocks_until_rejected.1 pendingState 0 25 "upi" "acct"
    (by decide) (by decide), ?_⟩
  obtain ⟨cid, tx, no, procId, now, claim, heq, hf, hu, hp⟩ :=
    claimedMilestone_blocks_until_rejected.2 pendingState 0 25
      (Op.resolve 5 (some .rejected) none none 7 100) (by decide) (by decide)
  cases heq
  exact ⟨5, none, none, 7, 100, claim, rfl, hf, hu, hp⟩

lemma pendingCount_eq_zero {s : LedgerState} {uid : Nat}
    (h : hasPendingClaim s uid = false) : pendingCount s uid = 0 := by
  unfold hasPendingClaim at h
  unfold pendingCount
  exact List.countP_eq_zero.mpr (List.any_eq_false.mp h)

lemma countP_setClaim_le (pr : ClaimRec → Bool) (l : List ClaimRec)
    (cid : Nat) (c' : ClaimRec)
    (h : ∀ d, findClaim l cid = some d → pr c' = true → pr d = true) :
    (setClaim l cid c').countP pr ≤ l.countP pr := by
  induction l with
  | nil => simp [setClaim]
  | cons d ds ih =>
    by_cases hd : d.id = cid
    · have hset : setClaim (d :: ds) cid c' = c' :: ds := by simp [setClaim, hd]
      have hfind : findClaim (d :: ds) cid = some d :=
        List.find?_cons_of_pos _ (by simp [hd])
      rw [hset, List.countP_cons, List.countP_cons]
      by_cases hc : pr c' = true
      · rw [if_pos hc, if_pos (h d hfind hc)]
      · rw [if_neg hc]
        split <;> omega
    · have hset : setClaim (d :: ds) cid c' = d :: setClaim ds cid c' := by
        simp [setClaim, hd]
      have hfind : findClaim (d :: ds) cid = findClaim ds cid := by
        unfold findClaim
        exact List.find?_cons_of_neg _ (by simp [hd])
      rw [hset, List.countP_cons, List.countP_cons]
      have := ih (fun e he hp => h e (by rw [hfind]; exact he) hp)
      omega

lemma pendingCount_step_le (s : LedgerState) (uid : Nat) (op : Op)
    (hop : resolvesToPending op = false)
    (hinv : pendingCount s uid ≤ 1) :
    pendingCount (step s op) uid ≤ 1 := by
  cases op with
  | request uid' p pm pd =>
    cases hc : createClaim s uid' p pm pd with
    | error e => simpa only [step, hc] using hinv
    | ok s' =>
      obtain ⟨amt, -, -, -, hnp, -, rfl⟩ := createClaim_ok_iff.mp hc
      have hcount : pendingCount (applyCreate s uid' p amt pm pd) uid =
          pendingCount s uid +
            (if isPendingOf uid (newClaim s uid' p amt pm pd) = true then 1 else 0) := by
        unfold pendingCount
        rw [claims_applyCreate, List.countP_append, List.countP_cons]
        simp
      simp only [step, hc]
      rw [hcount]
      by_cases hu : uid' = uid
      · subst hu
        rw [pendingCount_eq_zero hnp]
        split <;> omega
      · have hnew : isPendingOf uid (newClaim s uid' p amt pm pd) = false := by
          simp [isPendingOf, newClaim]
          exact fun h => absurd h hu
        rw [hnew]
        simp
        omega
  | resolve cid st tx no procId now =>
    have hst : st ≠ some .pending := by
      intro h
      subst h
      simp [resolvesToPending] at hop
    cases hf : findClaim s.claims cid with
    | none => simpa only [step, updateClaim, hf] using hinv
    | some claim =>
      have hid := findClaim_id hf
      have hle : (setClaim s.claims claim.id
            (resolvedClaim claim st tx no procId now)).countP (isPendingOf uid) ≤
          s.claims.countP (isPendingOf uid) := by
        apply countP_setClaim_le
        intro d hd hp
        rw [hid, hf] at hd
        injection hd with hd
        subst hd
        cases st with
        | none =>
          simp only [isPendingOf, resolvedClaim, Option.getD_none] at hp ⊢
          exact hp
        | some x =>
          exfalso
          have hx : x = ClaimStatus.pending := by
            simp [isPendingOf, resolvedClaim] at hp
            exact hp.2
          exact hst (by rw [hx])
      simp only [step, updateClaim, hf]
      unfold pendingCount at hinv ⊢
      rw [claims_applyResolve]
      exact le_trans hle hinv
  | createContent uid' a =>
    have : pendingCount (step s (.createContent uid' a)) uid = pendingCount s uid := by
      unfold pendingCount
      rw [show step s (.createContent uid' a) = createContent s uid' a from rfl,
        claims_createContent]
    rw [this]
    exact hinv
  | deleteContent uid' a =>
    have : pendingCount (step s (.deleteContent uid' a)) uid = pendingCount s uid := by
      unfold pendingCount
      rw [show step s (.deleteContent uid' a) = deleteContent s uid' a from rfl,
        claims_deleteContent]
    rw [this]
    exact hinv

lemma pendingCount_steps_le (uid : Nat) :
    ∀ (ops : List Op) (s : LedgerState),
      (∀ op ∈ ops, resolvesToPending op = false) →
      pendingCount s uid ≤ 1 →
      pendingCount (steps s ops) uid ≤ 1 := by
  intro ops
  induction ops with
  | nil => intro s _ h; exact h
  | cons op rest ih =>
    intro s hops hinv
    exact ih (step s op) (fun o ho => hops o (List.mem_cons_of_mem _ ho))
      (pendingCount_step_le s uid op (hops op (List.mem_cons_self _ _)) hinv)

/-- C2.  Along every sequence of ledger operations in which the resolve
calls carry one of the spec's resolution statuses (never `pending`), a
contributor with at most one pending claim keeps at most one pending
claim; a claim request never succeeds while the contributor already holds
a pending claim; and when the milestone, double-claim and balance checks
all pass, such a request is answered with exactly the
claim-already-pending error. -/
theorem at_most_one_pending_claim (s : LedgerState) (uid : Nat)
    (ops : List Op)
    (hops : ∀ op ∈ ops, resolvesToPending op = false)
    (hinv : pendingCount s uid ≤ 1) :
    pendingCount (steps s ops) uid ≤ 1 ∧
    (∀ (p : Nat) (pm pd : String) (s' : LedgerState),
      hasPendingClaim s uid = true →
      createClaim s uid p pm pd ≠ .ok s') ∧
    (∀ (p amt : Nat) (pm pd : String),
      validMilestones p = some amt →
      p ∉ (s.users uid).claimedMilestones →
      ¬ (s.users uid).points < (p : Int) →
      hasPendingClaim s uid = true →
      createClaim s uid p pm pd = .error .claimAlreadyPending) := by
  refine ⟨pendingCount_steps_le uid ops s hops hinv, ?_, ?_⟩
  · intro p pm pd s' hpend hok
    obtain ⟨-, -, -, -, hnp, -, -⟩ := createClaim_ok_iff.mp hok
    rw [hpend] at hnp
    exact absurd hnp (by simp)
  · intro p amt pm pd hv hmem hlt hpend
    unfold createClaim
    rw [hv]
    simp [hmem, hlt, hpend]

/-- Closed instance of C2: with the 25-point claim pending, moving it to
`processing` and then requesting again keeps the pending count at one; a
fresh 100-point request (all earlier checks passing, 100 points in hand)
cannot succeed and is answered with the claim-already-pending error. -/
theorem at_most_one_pending_claim_witness :
    pendingCount (steps richPendingState
      [Op.resolve 5 (some .processing) none none 7 100,
       Op.request 0 100 "upi" "acct"]) 0 ≤ 1 ∧
    createClaim richPendingState 0 100 "upi" "acct" ≠
      .ok (applyCreate richPendingState 0 100 120 "upi" "acct") ∧
    createClaim richPendingState 0 100 "upi" "acct" =
      .error .claimAlreadyPending := by
  have h := at_most_one_pending_claim richPendingState 0
    [Op.resolve 5 (some .processing) none none 7 100,
     Op.request 0 100 "upi" "acct"] (by decide) (by decide)
  exact ⟨h.1, h.2.1 100 "upi" "acct" _ (by decide),
    h.2.2 100 120 "upi" "acct" (by decide) (by decide) (by decide) (by decide)⟩

lemma points_step_nonneg (s : LedgerState) (uid : Nat) (op : Op)
    (h : 0 ≤ (s.users uid).points) :
    0 ≤ ((step s op).users uid).points := by
  cases op with
  | request uid' p pm pd =>
    cases hc : createClaim s uid' p pm pd with
    | error e => simpa only [step, hc] using h
    | ok s' =>
      obtain ⟨amt, -, -, hlt, -, -, rfl⟩ := createClaim_ok_iff.mp hc
      simp only [step, hc]
      rw [users_applyCreate]
      by_cases hu : uid = uid'
      · rw [if_pos hu]
        show 0 ≤ (s.users uid').points - (p : Int)
        have h' : 0 ≤ (s.users uid').points := hu ▸ h
        omega
      · rw [if_neg hu]
        exact h
  | resolve cid st tx no procId now =>
    cases hf : findClaim s.claims cid with
    | none => simpa only [step, updateClaim, hf] using h
    | some claim =>
      simp only [step, updateClaim, hf]
      match st with
      | none =>
        rw [users_applyResolve_other s claim none tx no procId now ⟨by simp, by simp⟩]
        exact h
      | some .pending =>
        rw [users_applyResolve_other s claim (some .pending) tx no procId now
          ⟨by simp, by simp⟩]
        exact h
      | some .processing =>
        rw [users_applyResolve_other s claim (some .processing) tx no procId now
          ⟨by simp, by simp⟩]
        exact h
      | some .paid =>
        rw [users_applyResolve_paid]
        by_cases hu : uid = claim.user
        · rw [if_pos hu]
          exact hu ▸ h
        · rw [if_neg hu]
          exact h
      | some .rejected =>
        rw [users_applyResolve_rejected]
        by_cases hu : uid = claim.user
        · rw [if_pos hu]
          have h' : 0 ≤ (s.users claim.user).points := hu ▸ h
          show 0 ≤ (s.users claim.user).points + (claim.points : Int)
          omega
        · rw [if_neg hu]
          exact h
  | createContent uid' a =>
    rw [show step s (.createContent uid' a) = createContent s uid' a from rfl,
      users_createContent]
    by_cases hc : a = false ∧ uid = uid'
    · rw [if_pos hc]
      have h' : 0 ≤ (s.users uid').points := hc.2 ▸ h
      show 0 ≤ (s.users uid').points + 1
      omega
    · rw [if_neg hc]
      exact h
  | deleteContent uid' a =>
    rw [show step s (.deleteContent uid' a) = deleteContent s uid' a from rfl,
      users_deleteContent]
    by_cases hc : a = false ∧ uid = uid'
    · rw [if_pos hc]
      show 0 ≤ if (s.users uid').points - 1 < 0 then 0 else (s.users uid').points - 1
      split <;> omega
    · rw [if_neg hc]
      exact h

lemma points_steps_nonneg (uid : Nat) :
    ∀ (ops : List Op) (s : LedgerState),
      0 ≤ (s.users uid).points →
      0 ≤ ((steps s ops).users uid).points := by
  intro ops
  induction ops with
  | nil => intro s h; exact h
  | cons op rest ih =>
    intro s h
    exact ih (step s op) (points_step_nonneg s uid op h)

/-- C9.  A contributor starting with a nonnegative balance keeps a
nonnegative balance across every sequence of system operations; the
contributor-initiated deletion debit is exactly one point floored at
zero; and a claim request deducts its milestone cost only when the
current balance covers it. -/
theorem points_nonneg_invariant (s : LedgerState) (uid : Nat) (ops : List Op)
    (h : 0 ≤ (s.users uid).points) :
    0 ≤ ((steps s ops).users uid).points ∧
    (∀ (t : LedgerState) (v : Nat),
      ((deleteContent t v false).users v).points = max ((t.users v).points - 1) 0) ∧
    (∀ (t : LedgerState) (v p : Nat) (pm pd : String) (t' : LedgerState),
      createClaim t v p pm pd = .ok t' →
      (p : Int) ≤ (t.users v).points ∧
      (t'.users v).points = (t.users v).points - (p : Int)) := by
  refine ⟨points_steps_nonneg uid ops s h, ?_, ?_⟩
  · intro t v
    rw [users_deleteContent, if_pos ⟨rfl, rfl⟩]
    show (if (t.users v).points - 1 < 0 then 0 else (t.users v).points - 1) =
      max ((t.users v).points - 1) 0
    rw [max_def]
    split_ifs <;> omega
  · intro t v p pm pd t' hok
    obtain ⟨amt, -, -, hlt, -, -, rfl⟩ := createClaim_ok_iff.mp hok
    refine ⟨by omega, ?_⟩
    rw [users_applyCreate, if_pos rfl]

/-- Closed instance of C9: starting from the fresh 30-point contributor, a
create–request–delete–reject sequence keeps the balance nonnegative; the
deletion debit from 30 points is `max (30-1) 0`; and the successful
25-point request implies 25 ≤ 30 and a balance of exactly 30 − 25. -/
theorem points_nonneg_invariant_witness :
    0 ≤ ((steps demoState
      [Op.createContent 0 false, Op.request 0 25 "upi" "acct",
       Op.deleteContent 0 false,
       Op.resolve 0 (some .rejected) none none 7 100]).users 0).points ∧
    ((deleteContent demoState 0 false).users 0).points =
      max ((demoState.users 0).points - 1) 0 ∧
    ((25 : Nat) : Int) ≤ (demoState.users 0).points ∧
    (demoAfter25.users 0).points = (demoState.users 0).points - ((25 : Nat) : Int) := by
  have h := points_nonneg_invariant demoState 0
    [Op.createContent 0 false, Op.request 0 25 "upi" "acct",
     Op.deleteContent 0 false,
     Op.resolve 0 (some .rejected) none none 7 100] (by decide)
  have h3 := h.2.2 demoState 0 25 "upi" "acct" demoAfter25 rfl
  exact ⟨h.1, h.2.1 demoState 0, h3.1, h3.2⟩

end Edulumix
